import Mathlib

/-!
# Verification of the chunked transcription pipeline (`src/transcribe.py`)

Shallow embedding of the pipeline in `transcribe.py`:

* A decoded pydub `AudioSegment` is modelled as a `List Nat` of millisecond
  frames: `len(audio)` in pydub is the duration in milliseconds, which is the
  length of the list, and `audio[a:b]` slices by milliseconds with Python's
  clamping semantics (`pySlice`).
* Python's built-in `range(0, stop, step)` for `step > 0` is, per its
  documented semantics, the list `[i * step | 0 ≤ i < ceil(stop / step)]`;
  `range` with step `0` raises `ValueError`, and `range(0, stop, step)` with
  `step < 0` and `stop ≥ 0` is empty.
* `chunk.export(chunk_data, format="wav")` followed by `chunks.append` is
  treated as the identity on the audio content of the chunk.
* The external collaborators (HTTP download, the ffmpeg subprocess,
  `AudioSegment.from_file`, the whisper model) are opaque and are passed in
  as oracle parameters returning `Except` values; a raised Python exception
  is an `Except.error`.
* `VideoProcessor.process_video` is embedded as a function from those
  oracles to its result together with a trace of the external calls it makes
  (`Ev`): the download, the ffmpeg decode, the segmentation, each per-chunk
  transcription call in the order they happen, and the final file write by
  `TextSaver.save_text`.  `Except.ok s` means the run succeeded and wrote
  the string `s` to the output file.
-/

/-- External calls made by `VideoProcessor.process_video`, in order: the
HTTP download, the ffmpeg decode, the segmentation (`AudioSegment.from_file`
plus the slicing loop), the transcription of chunk `i`, and the final write
of the output file by `TextSaver.save_text`. -/
inductive Ev where
  | download : Ev
  | decode : Ev
  | split : Ev
  | transcribe : Nat → Ev
  | write : Ev
deriving DecidableEq

/-- The exceptions that can escape `process_video`.  Each constructor records
the stage whose Python exception propagates; `rangeStepZero` is the
`ValueError` raised by `range(0, d, 0)` when `chunk_duration = 0`.  Note
that the source has no `InvalidConfig` and no aggregate `TranscriptionFailed`
exception: a transcription failure propagates the failing chunk's own
error. -/
inductive Err where
  | downloadError : String → Err
  | decodeError : String → Err
  | couldntDecode : String → Err
  | rangeStepZero : Err
  | transcriptionError : String → Err
deriving DecidableEq

/-- Python slice `l[a:b]` for `0 ≤ a ≤ b`: drop `a` elements, then take
`b - a`; both `drop` and `take` clamp at the end of the list exactly as
Python slicing does. -/
def pySlice (l : List Nat) (a b : Nat) : List Nat :=
  (l.drop a).take (b - a)

/-- Number of iterations of `for start_ms in range(0, D, step)` for
`step > 0`: `ceil(D / step)`. -/
def numChunks (D step : Nat) : Nat :=
  (D + step - 1) / step

/-- The chunk list built by the loop in `AudioSplitter.split_audio`
(lines 64–69) for a positive stride `step` (in milliseconds): one slice
`audio[start : start + step]` per `start` in `range(0, len(audio), step)`. -/
def chunksOf (audio : List Nat) (step : Nat) : List (List Nat) :=
  (List.range (numChunks audio.length step)).map
    (fun i => pySlice audio (i * step) (i * step + step))

/-- `AudioSplitter.split_audio` (lines 55–71) after `AudioSegment.from_file`
has produced the decoded audio: the stride is `chunk_duration * 1000`
milliseconds.  A zero stride makes `range` raise `ValueError`
(`rangeStepZero`); a negative stride makes `range(0, D, step)` empty, so the
method silently returns an empty chunk list. -/
def split_audio (audio : List Nat) (chunk_duration : Int) : Except Err (List (List Nat)) :=
  if chunk_duration * 1000 = 0 then .error .rangeStepZero
  else if chunk_duration * 1000 < 0 then .ok []
  else .ok (chunksOf audio (chunk_duration * 1000).toNat)

/-- `AudioExtractor.extract_audio` (lines 32–44): it allocates an empty
`io.BytesIO()` as `audio_output`, runs ffmpeg with `capture_stdout=True`
but never assigns the captured stdout to `audio_output`, and returns
`audio_output`.  So when the ffmpeg call succeeds the returned buffer is
empty, whatever the input video was; when ffmpeg fails the exception
propagates. -/
def extract_audio (ffmpegRun : List Nat → Except String (List Nat))
    (video_data : List Nat) : Except String (List Nat) :=
  match ffmpegRun video_data with
  | .error e => .error e
  | .ok _stdout => .ok []

/-- The transcription loop of `process_video` (lines 130–134): walk the
chunks in order with the running index `i` and accumulator `full_text`;
a successful call appends `text + "\n"`, a raised exception propagates
immediately, ending the loop.  The second component is the trace of
transcription calls made. -/
def transcribe_chunks (engine : List Nat → Except String String) :
    List (List Nat) → Nat → String → Except String String × List Ev
  | [], _, full_text => (.ok full_text, [])
  | chunk :: rest, i, full_text =>
    match engine chunk with
    | .error e => (.error e, [.transcribe i])
    | .ok text =>
      let r := transcribe_chunks engine rest (i + 1) (full_text ++ text ++ "\n")
      (r.1, .transcribe i :: r.2)

/-- The pipeline from segmentation through transcript assembly: steps 3–4 of
`process_video`, as a function of the decoded audio, the chunk duration and
the transcription engine. -/
def orchestrate (audio : List Nat) (chunk_duration : Int)
    (engine : List Nat → Except String String) : Except Err String :=
  match split_audio audio chunk_duration with
  | .error e => .error e
  | .ok chunks =>
    match (transcribe_chunks engine chunks 0 "").1 with
    | .error e => .error (.transcriptionError e)
    | .ok full_text => .ok full_text

/-- `VideoProcessor.process_video` (lines 113–139).  `dl` is the result of
`VideoDownloader.download_video`, `ffmpegRun` the ffmpeg subprocess call
inside `extract_audio`, `fromFile` the `AudioSegment.from_file` call inside
`split_audio`, `engine` the whisper transcription of one chunk.  Returns the
outcome (`ok` = transcript written to the output file) and the trace of
external calls in the order the method makes them. -/
def process_video (dl : Except String (List Nat))
    (ffmpegRun : List Nat → Except String (List Nat))
    (fromFile : List Nat → Except String (List Nat))
    (chunk_duration : Int)
    (engine : List Nat → Except String String) :
    Except Err String × List Ev :=
  match dl with
  | .error e => (.error (.downloadError e), [.download])
  | .ok video_data =>
    match extract_audio ffmpegRun video_data with
    | .error e => (.error (.decodeError e), [.download, .decode])
    | .ok audio_data =>
      match fromFile audio_data with
      | .error e => (.error (.couldntDecode e), [.download, .decode, .split])
      | .ok audio =>
        match split_audio audio chunk_duration with
        | .error er => (.error er, [.download, .decode, .split])
        | .ok chunks =>
          match transcribe_chunks engine chunks 0 "" with
          | (.error e, evs) =>
            (.error (.transcriptionError e), [.download, .decode, .split] ++ evs)
          | (.ok full_text, evs) =>
            (.ok full_text, [.download, .decode, .split] ++ evs ++ [.write])

lemma pySlice_stride (l : List Nat) (a step : Nat) :
    pySlice l a (a + step) = (l.drop a).take step := by
  simp [pySlice]

lemma numChunks_zero (step : Nat) : numChunks 0 step = 0 := by
  unfold numChunks
  rcases Nat.eq_zero_or_pos step with h | h
  · subst h; rfl
  · exact Nat.div_eq_of_lt (by omega)

lemma numChunks_succ (step D : Nat) (hs : 0 < step) (hD : 0 < D) :
    numChunks D step = numChunks (D - step) step + 1 := by
  unfold numChunks
  rcases Nat.le_total D step with h | h
  · have h1 : D - step = 0 := by omega
    rw [h1]
    have h2 : (0 + step - 1) / step = 0 := Nat.div_eq_of_lt (by omega)
    have h3 : (D + step - 1) / step = 1 := Nat.div_eq_of_lt_le (by omega) (by omega)
    omega
  · have h3 : D + step - 1 = (D - step + step - 1) + step * 1 := by omega
    rw [h3, Nat.add_mul_div_left _ _ hs]

lemma chunksOf_length (audio : List Nat) (step : Nat) :
    (chunksOf audio step).length = numChunks audio.length step := by
  simp [chunksOf]

lemma chunksOf_getElem (audio : List Nat) (step i : Nat)
    (h : i < (chunksOf audio step).length) :
    (chunksOf audio step)[i] = pySlice audio (i * step) (i * step + step) := by
  simp [chunksOf]

lemma chunksOf_getElem_length (audio : List Nat) (step i : Nat)
    (h : i < (chunksOf audio step).length) :
    (chunksOf audio step)[i].length = min step (audio.length - i * step) := by
  rw [chunksOf_getElem audio step i h, pySlice_stride]
  simp

/-- The chunks of one segmentation concatenate back to the whole buffer:
they cover `[0, D)` in ascending order with no gaps and no overlaps. -/
lemma chunksOf_flatten (step : Nat) (hs : 0 < step) (audio : List Nat) :
    (chunksOf audio step).flatten = audio := by
  rcases Nat.eq_zero_or_pos audio.length with h0 | hpos
  · have haudio : audio = [] := List.length_eq_zero.mp h0
    subst haudio
    simp [chunksOf, numChunks_zero]
  · have hlt : (audio.drop step).length < audio.length := by
      rw [List.length_drop]; omega
    have ih := chunksOf_flatten step hs (audio.drop step)
    have hn : numChunks audio.length step
        = numChunks (audio.drop step).length step + 1 := by
      rw [List.length_drop]; exact numChunks_succ step _ hs hpos
    unfold chunksOf
    rw [hn, List.range_succ_eq_map, List.map_cons, List.map_map, List.flatten_cons]
    have hhead : pySlice audio (0 * step) (0 * step + step) = audio.take step := by
      rw [pySlice_stride]; simp
    have htail :
        (List.range (numChunks (audio.drop step).length step)).map
            ((fun i => pySlice audio (i * step) (i * step + step)) ∘ Nat.succ)
          = chunksOf (audio.drop step) step := by
      unfold chunksOf
      apply List.map_congr_left
      intro i _
      simp only [Function.comp_apply, pySlice_stride, List.drop_drop]
      have hsm : Nat.succ i * step = step + i * step := by
        rw [Nat.succ_mul]; omega
      rw [hsm]
    rw [hhead, htail, ih, List.take_append_drop]
termination_by audio.length
decreasing_by exact hlt

/-- Length of the final chunk, for a non-empty buffer: `D mod step`, or a
full `step` when the stride divides the duration. -/
lemma numChunks_last (step D : Nat) (hs : 0 < step) (hD : 0 < D) :
    min step (D - (numChunks D step - 1) * step)
      = if D % step = 0 then step else D % step := by
  have hqr := Nat.div_add_mod D step
  have hrlt : D % step < step := Nat.mod_lt _ hs
  by_cases h0 : D % step = 0
  · rw [if_pos h0]
    rcases Nat.eq_zero_or_pos (D / step) with hq0 | hq1
    · rw [hq0] at hqr; omega
    · have hnum : numChunks D step = D / step := by
        unfold numChunks
        have h1 : D + step - 1 = step * (D / step) + (step - 1) := by omega
        rw [h1, Nat.mul_add_div hs]
        have h2 : (step - 1) / step = 0 := Nat.div_eq_of_lt (by omega)
        omega
      have hstep : 1 * step ≤ D := (Nat.le_div_iff_mul_le hs).mp hq1
      rw [hnum, Nat.sub_mul, Nat.one_mul, Nat.mul_comm (D / step) step]
      omega
  · rw [if_neg h0]
    have hnum : numChunks D step = D / step + 1 := by
      unfold numChunks
      have h1 : D + step - 1 = step * (D / step) + (D % step + step - 1) := by omega
      rw [h1, Nat.mul_add_div hs]
      have h2 : (D % step + step - 1) / step = 1 :=
        Nat.div_eq_of_lt_le (by omega) (by omega)
      omega
    rw [hnum, Nat.sub_mul, Nat.one_mul, Nat.mul_comm (D / step + 1) step]
    have h3 : step * (D / step + 1) = step * (D / step) + step := by ring
    omega

lemma numChunks_bounds (step D : Nat) (hs : 0 < step) (hD : 0 < D) :
    (numChunks D step - 1) * step < D ∧ D ≤ numChunks D step * step := by
  unfold numChunks
  have hdm := Nat.div_add_mod (D + step - 1) step
  have hmlt : (D + step - 1) % step < step := Nat.mod_lt _ hs
  rw [Nat.sub_mul, Nat.one_mul, Nat.mul_comm ((D + step - 1) / step) step]
  omega

lemma split_audio_pos (audio : List Nat) (cd : Int) (hcd : 0 < cd) :
    split_audio audio cd = .ok (chunksOf audio (cd.toNat * 1000)) := by
  have h1 : ¬ (cd * 1000 = 0) := by omega
  have h2 : ¬ (cd * 1000 < 0) := by omega
  have h3 : (cd * 1000).toNat = cd.toNat * 1000 := by omega
  simp [split_audio, h1, h2, h3]

/-- When every chunk transcribes successfully, the loop returns the in-order
concatenation of the texts, each followed by a newline, appended to the
accumulator, and the trace lists the transcription calls in ascending chunk
index order. -/
lemma transcribe_chunks_all_ok (engine : List Nat → Except String String)
    (chunks : List (List Nat)) (texts : List String)
    (h : chunks.map engine = texts.map Except.ok) (i : Nat) (acc : String) :
    transcribe_chunks engine chunks i acc
      = (.ok (texts.foldl (fun a t => a ++ t ++ "\n") acc),
         (List.range' i chunks.length).map Ev.transcribe) := by
  induction chunks generalizing texts i acc with
  | nil =>
    have htx : texts = [] := by
      cases texts with
      | nil => rfl
      | cons t ts => simp at h
    subst htx
    simp [transcribe_chunks]
  | cons c cs ih =>
    cases texts with
    | nil => simp at h
    | cons t ts =>
      simp only [List.map_cons, List.cons.injEq] at h
      simp only [transcribe_chunks, h.1, ih ts h.2 (i + 1) (acc ++ t ++ "\n"),
        List.length_cons, List.range'_succ, List.map_cons, List.foldl_cons]

/-- The loop stops at the first failing chunk: its exception is the result,
and only the chunks up to and including the failing one are transcribed. -/
lemma transcribe_chunks_first_fail (engine : List Nat → Except String String)
    (e : String) (pre : List (List Nat)) (c : List Nat) (post : List (List Nat))
    (hpre : ∀ x ∈ pre, ∃ t, engine x = .ok t) (hc : engine c = .error e)
    (i : Nat) (acc : String) :
    transcribe_chunks engine (pre ++ c :: post) i acc
      = (.error e, (List.range' i (pre.length + 1)).map Ev.transcribe) := by
  induction pre generalizing i acc with
  | nil =>
    simp [transcribe_chunks, hc, List.range'_succ]
  | cons p ps ih =>
    obtain ⟨t, hp⟩ := hpre p (List.mem_cons_self p ps)
    have ih' := ih (fun x hx => hpre x (List.mem_cons_of_mem p hx)) (i + 1) (acc ++ t ++ "\n")
    rw [List.cons_append]
    simp only [transcribe_chunks, hp, List.append_eq]
    rw [ih']
    simp [List.range'_succ]

/-- **C1.** For every `chunkDuration > 0` and every audio buffer of duration
`D` ms, `AudioSplitter.split_audio` produces exactly `ceil(D / stride)`
chunks where `stride = chunkDuration * 1000` ms (0 chunks when `D = 0`; the
count bounds `(n-1)*stride < D ≤ n*stride` pin the ceiling down), the chunks
concatenate back to the whole buffer (covering `[0, D)` in ascending
start-offset order with no gaps and no overlaps), chunk `i` is the slice
starting at offset `i * stride` (that is, `i * chunkDuration` seconds), and
the last chunk's duration is `D mod stride` unless that remainder is 0, in
which case it is a full `stride`. -/
theorem C1_segmentation (audio : List Nat) (cd : Int) (hcd : 0 < cd) :
    ∃ chunks, split_audio audio cd = .ok chunks
      ∧ chunks.length = (audio.length + cd.toNat * 1000 - 1) / (cd.toNat * 1000)
      ∧ (audio.length = 0 → chunks = [])
      ∧ (0 < audio.length →
          (chunks.length - 1) * (cd.toNat * 1000) < audio.length
          ∧ audio.length ≤ chunks.length * (cd.toNat * 1000))
      ∧ chunks.flatten = audio
      ∧ (∀ i, ∀ h : i < chunks.length,
          chunks[i] = pySlice audio (i * (cd.toNat * 1000))
            (i * (cd.toNat * 1000) + cd.toNat * 1000))
      ∧ (∀ h : chunks ≠ [],
          (chunks.getLast h).length
            = if audio.length % (cd.toNat * 1000) = 0 then cd.toNat * 1000
              else audio.length % (cd.toNat * 1000)) := by
  set step := cd.toNat * 1000 with hstep
  have hs : 0 < step := by omega
  refine ⟨chunksOf audio step, split_audio_pos audio cd hcd, ?_, ?_, ?_, ?_, ?_, ?_⟩
  · rw [chunksOf_length]; rfl
  · intro h0
    have hlen : (chunksOf audio step).length = 0 := by
      rw [chunksOf_length, h0, numChunks_zero]
    exact List.length_eq_zero.mp hlen
  · intro hpos
    rw [chunksOf_length]
    exact numChunks_bounds step audio.length hs hpos
  · exact chunksOf_flatten step hs audio
  · intro i h
    exact chunksOf_getElem audio step i h
  · intro h
    have hlen : 0 < (chunksOf audio step).length := List.length_pos.mpr h
    have hD : 0 < audio.length := by
      by_contra h0
      push_neg at h0
      have h00 : audio.length = 0 := by omega
      rw [chunksOf_length, h00, numChunks_zero] at hlen
      omega
    rw [List.getLast_eq_getElem, chunksOf_getElem_length, chunksOf_length]
    exact numChunks_last step audio.length hs hD

/-- Witness for C1: `chunkDuration = 1` on a 5 ms buffer. -/
theorem C1_segmentation_witness :
    (0 : Int) < 1 ∧
      ∃ chunks, split_audio [9, 8, 7, 6, 5] 1 = .ok chunks
        ∧ chunks.length
            = (([9, 8, 7, 6, 5] : List Nat).length + (1 : Int).toNat * 1000 - 1)
              / ((1 : Int).toNat * 1000)
        ∧ (([9, 8, 7, 6, 5] : List Nat).length = 0 → chunks = [])
        ∧ (0 < ([9, 8, 7, 6, 5] : List Nat).length →
            (chunks.length - 1) * ((1 : Int).toNat * 1000) < ([9, 8, 7, 6, 5] : List Nat).length
            ∧ ([9, 8, 7, 6, 5] : List Nat).length ≤ chunks.length * ((1 : Int).toNat * 1000))
        ∧ chunks.flatten = [9, 8, 7, 6, 5]
        ∧ (∀ i, ∀ h : i < chunks.length,
            chunks[i] = pySlice [9, 8, 7, 6, 5] (i * ((1 : Int).toNat * 1000))
              (i * ((1 : Int).toNat * 1000) + (1 : Int).toNat * 1000))
        ∧ (∀ h : chunks ≠ [],
            (chunks.getLast h).length
              = if ([9, 8, 7, 6, 5] : List Nat).length % ((1 : Int).toNat * 1000) = 0
                then (1 : Int).toNat * 1000
                else ([9, 8, 7, 6, 5] : List Nat).length % ((1 : Int).toNat * 1000)) :=
  ⟨by decide, C1_segmentation [9, 8, 7, 6, 5] 1 (by decide)⟩

/-- **C7.** For every `chunkDuration > 0`: a zero-duration buffer splits
into the empty chunk sequence; a non-empty buffer strictly shorter than the
stride yields exactly one chunk equal to the whole buffer; and a buffer
whose duration is an exact positive multiple `q` of the stride yields
exactly `q` chunks, every one of duration exactly the stride (no short
trailing chunk). -/
theorem C7_edge_cases (audio : List Nat) (cd : Int) (hcd : 0 < cd) :
    (audio.length = 0 → split_audio audio cd = .ok [])
    ∧ (0 < audio.length → audio.length < cd.toNat * 1000 →
        split_audio audio cd = .ok [audio])
    ∧ (∀ q : Nat, 0 < q → audio.length = q * (cd.toNat * 1000) →
        ∃ chunks, split_audio audio cd = .ok chunks ∧ chunks.length = q
          ∧ ∀ c ∈ chunks, c.length = cd.toNat * 1000) := by
  set step := cd.toNat * 1000 with hstep
  have hs : 0 < step := by omega
  have hpos := split_audio_pos audio cd hcd
  rw [← hstep] at hpos
  refine ⟨?_, ?_, ?_⟩
  · intro h0
    rw [hpos]
    have haudio : audio = [] := List.length_eq_zero.mp h0
    subst haudio
    simp [chunksOf, numChunks_zero]
  · intro hD hshort
    rw [hpos]
    have hnum : numChunks audio.length step = 1 :=
      Nat.div_eq_of_lt_le (by omega) (by omega)
    unfold chunksOf
    rw [hnum]
    simp [List.range_succ, pySlice, List.take_of_length_le (Nat.le_of_lt hshort)]
  · intro q hq hmul
    refine ⟨chunksOf audio step, hpos, ?_, ?_⟩
    · rw [chunksOf_length, hmul]
      unfold numChunks
      have h1 : q * step + step - 1 = step * q + (step - 1) := by
        rw [Nat.mul_comm step q]; omega
      rw [h1, Nat.mul_add_div hs, Nat.div_eq_of_lt (by omega)]
      omega
    · intro c hc
      obtain ⟨i, hi, rfl⟩ := List.getElem_of_mem hc
      rw [chunksOf_getElem_length]
      have hiq : i < q := by
        rw [chunksOf_length, hmul] at hi
        unfold numChunks at hi
        have h1 : q * step + step - 1 = step * q + (step - 1) := by
          rw [Nat.mul_comm step q]; omega
        rw [h1, Nat.mul_add_div hs, Nat.div_eq_of_lt (by omega)] at hi
        omega
      have h1 : q * step - i * step = (q - i) * step := (Nat.sub_mul q i step).symm
      have h2 : step ≤ (q - i) * step := Nat.le_mul_of_pos_left step (by omega)
      rw [hmul]
      omega

/-- Witness for C7: `chunkDuration = 2` on a 3 ms buffer. -/
theorem C7_edge_cases_witness :
    (0 : Int) < 2 ∧
      ((([4, 4, 4] : List Nat).length = 0 → split_audio [4, 4, 4] 2 = .ok [])
      ∧ (0 < ([4, 4, 4] : List Nat).length →
          ([4, 4, 4] : List Nat).length < (2 : Int).toNat * 1000 →
          split_audio [4, 4, 4] 2 = .ok [[4, 4, 4]])
      ∧ (∀ q : Nat, 0 < q → ([4, 4, 4] : List Nat).length = q * ((2 : Int).toNat * 1000) →
          ∃ chunks, split_audio [4, 4, 4] 2 = .ok chunks ∧ chunks.length = q
            ∧ ∀ c ∈ chunks, c.length = (2 : Int).toNat * 1000)) :=
  ⟨by decide, C7_edge_cases [4, 4, 4] 2 (by decide)⟩

/-- **C6.** Transcript segment `i` corresponds to audio chunk `i`: when all
chunks succeed with texts `texts`, the run's transcript is the left fold of
`texts` in chunk order (each text followed by a newline), and the trace
shows each chunk transcribed in ascending chunk-index order, strictly after
segmentation and before the write. -/
theorem C6_ordering (dl : Except String (List Nat))
    (ffmpegRun fromFile : List Nat → Except String (List Nat))
    (video stdout audio : List Nat) (cd : Int)
    (engine : List Nat → Except String String)
    (chunks : List (List Nat)) (texts : List String)
    (hdl : dl = .ok video) (hffr : ffmpegRun video = .ok stdout)
    (hff : fromFile [] = .ok audio)
    (hsplit : split_audio audio cd = .ok chunks)
    (hengine : chunks.map engine = texts.map Except.ok) :
    process_video dl ffmpegRun fromFile cd engine
      = (.ok (texts.foldl (fun a t => a ++ t ++ "\n") ""),
         [.download, .decode, .split]
           ++ (List.range' 0 chunks.length).map Ev.transcribe ++ [.write]) := by
  subst hdl
  simp only [process_video, extract_audio, hffr, hff, hsplit,
    transcribe_chunks_all_ok engine chunks texts hengine 0 ""]

/-- Witness for C6: one 5 ms chunk transcribed to `"hi"` in a full run. -/
theorem C6_ordering_witness :
    (Except.ok ([] : List Nat) : Except String (List Nat)) = .ok []
    ∧ (fun (_ : List Nat) => (Except.ok ([] : List Nat) : Except String (List Nat))) [] = .ok []
    ∧ (fun (_ : List Nat) =>
        (Except.ok ([3, 3, 3, 3, 3] : List Nat) : Except String (List Nat))) [] = .ok [3, 3, 3, 3, 3]
    ∧ split_audio [3, 3, 3, 3, 3] 1 = .ok [[3, 3, 3, 3, 3]]
    ∧ ([[3, 3, 3, 3, 3]] : List (List Nat)).map (fun _ => (Except.ok "hi" : Except String String))
        = (["hi"].map Except.ok)
    ∧ process_video (.ok []) (fun _ => .ok []) (fun _ => .ok [3, 3, 3, 3, 3]) 1 (fun _ => .ok "hi")
        = (.ok ((["hi"] : List String).foldl (fun a t => a ++ t ++ "\n") ""),
           [.download, .decode, .split]
             ++ (List.range' 0 ([[3, 3, 3, 3, 3]] : List (List Nat)).length).map Ev.transcribe
             ++ [.write]) :=
  ⟨rfl, rfl, rfl, rfl, rfl,
    C6_ordering (.ok []) (fun _ => .ok []) (fun _ => .ok [3, 3, 3, 3, 3]) [] [] [3, 3, 3, 3, 3] 1
      (fun _ => .ok "hi") [[3, 3, 3, 3, 3]] ["hi"] rfl rfl rfl rfl rfl⟩

/-- **C8.** The pipeline from segmentation through transcript assembly is a
deterministic function of the buffer, the chunk duration and the
(deterministic, modelled as a pure function) engine: any two runs on the
same inputs that produce transcripts produce byte-identical transcripts. -/
theorem C8_deterministic (audio : List Nat) (cd : Int)
    (engine : List Nat → Except String String) (t₁ t₂ : String)
    (h₁ : orchestrate audio cd engine = .ok t₁)
    (h₂ : orchestrate audio cd engine = .ok t₂) :
    t₁ = t₂ := by
  rw [h₁] at h₂
  exact Except.ok.inj h₂

/-- Witness for C8: two identical runs on a 2 ms buffer. -/
theorem C8_deterministic_witness :
    orchestrate [1, 2] 5 (fun _ => .ok "z") = .ok "z\n"
    ∧ ("z\n" : String) = "z\n" :=
  ⟨rfl, C8_deterministic [1, 2] 5 (fun _ => .ok "z") "z\n" "z\n" rfl rfl⟩

/-- **C10.** `AudioExtractor.extract_audio` returns an empty buffer whenever
the ffmpeg call succeeds (the captured stdout is never written into the
returned `audio_output`), and consequently the rest of the pipeline only
ever sees empty audio bytes: `process_video` depends on the
`AudioSegment.from_file` collaborator only through its value at the empty
buffer. -/
theorem C10_extract_audio_empty :
    (∀ (ffmpegRun : List Nat → Except String (List Nat)) (video stdout : List Nat),
        ffmpegRun video = .ok stdout → extract_audio ffmpegRun video = .ok [])
    ∧ (∀ (dl : Except String (List Nat))
        (ffmpegRun fromFile fromFile' : List Nat → Except String (List Nat))
        (cd : Int) (engine : List Nat → Except String String),
        fromFile [] = fromFile' [] →
        process_video dl ffmpegRun fromFile cd engine
          = process_video dl ffmpegRun fromFile' cd engine) := by
  constructor
  · intro run video stdout h
    unfold extract_audio
    rw [h]
  · intro dl run ff ff' cd engine hff
    cases dl with
    | error e => rfl
    | ok video =>
      unfold process_video
      dsimp only
      cases hext : extract_audio run video with
      | error e => rfl
      | ok audio_data =>
        have ha : audio_data = [] := by
          unfold extract_audio at hext
          cases hrun : run video with
          | error e => rw [hrun] at hext; exact Except.noConfusion hext
          | ok st => rw [hrun] at hext; exact (Except.ok.inj hext).symm
        subst ha
        dsimp only
        rw [hff]

/-- Witness for C10: a concrete successful ffmpeg call and two `from_file`
oracles that agree on the empty buffer. -/
theorem C10_extract_audio_empty_witness :
    ((fun (_ : List Nat) => (Except.ok ([7, 7] : List Nat) : Except String (List Nat))) [1]
        = .ok [7, 7])
    ∧ extract_audio (fun _ => .ok [7, 7]) [1] = .ok []
    ∧ ((fun (_ : List Nat) => (Except.ok ([2] : List Nat) : Except String (List Nat))) []
        = (fun (b : List Nat) => if b.length = 0 then (Except.ok ([2] : List Nat)) else .error "x") [])
    ∧ process_video (.ok []) (fun _ => .ok []) (fun _ => .ok [2]) 3 (fun _ => .ok "w")
        = process_video (.ok []) (fun _ => .ok [])
            (fun b => if b.length = 0 then .ok [2] else .error "x") 3 (fun _ => .ok "w") :=
  ⟨rfl, C10_extract_audio_empty.1 (fun _ => .ok [7, 7]) [1] [7, 7] rfl, rfl,
    C10_extract_audio_empty.2 (.ok []) (fun _ => .ok []) (fun _ => .ok [2])
      (fun b => if b.length = 0 then .ok [2] else .error "x") 3 (fun _ => .ok "w") rfl⟩

/-- Refutation of C4 as stated: with `chunkDuration = -1` segmentation does
not fail at all — `range(0, D, -1000)` is empty, so `split_audio` returns an
empty chunk list — and a full run then succeeds, writing an empty
transcript, after having performed both the download and the decode. -/
theorem C4_counterexample :
    split_audio [5, 5] (-1) = .ok []
    ∧ process_video (.ok [1]) (fun _ => .ok [2]) (fun _ => .ok [5, 5]) (-1)
        (fun _ => .error "m4")
      = (.ok "", [.download, .decode, .split, .write]) :=
  ⟨rfl, rfl⟩

/-- **C4 (amended).** The code has no `InvalidConfig` validation and nothing
fails before the download and the decode.  For `chunkDuration < 0`,
segmentation silently returns an empty chunk list and the run completes,
writing an empty transcript; for `chunkDuration = 0`, segmentation raises
`range`'s `ValueError`.  In both cases the download and the decode have
already happened by then, as the traces show. -/
theorem C4_no_invalid_config (audio video stdout : List Nat) (cd : Int)
    (dl : Except String (List Nat))
    (ffmpegRun fromFile : List Nat → Except String (List Nat))
    (engine : List Nat → Except String String)
    (hcd : cd ≤ 0)
    (hdl : dl = .ok video) (hffr : ffmpegRun video = .ok stdout)
    (hff : fromFile [] = .ok audio) :
    (cd < 0 →
      split_audio audio cd = .ok []
      ∧ process_video dl ffmpegRun fromFile cd engine
          = (.ok "", [.download, .decode, .split, .write]))
    ∧ (cd = 0 →
      split_audio audio cd = .error .rangeStepZero
      ∧ process_video dl ffmpegRun fromFile cd engine
          = (.error .rangeStepZero, [.download, .decode, .split])) := by
  subst hdl
  constructor
  · intro h
    have hsp : split_audio audio cd = .ok [] := by
      unfold split_audio
      rw [if_neg (by omega), if_pos (by omega)]
    refine ⟨hsp, ?_⟩
    simp only [process_video, extract_audio, hffr, hff, hsp, transcribe_chunks]
    simp
  · intro h
    subst h
    have hsp : split_audio audio 0 = .error .rangeStepZero := by
      unfold split_audio
      rw [if_pos (by omega)]
    refine ⟨hsp, ?_⟩
    simp only [process_video, extract_audio, hffr, hff, hsp]

/-- Witness for C4 (amended) at `chunkDuration = -2`. -/
theorem C4_no_invalid_config_witness :
    (-2 : Int) ≤ 0
    ∧ (Except.ok ([4] : List Nat) : Except String (List Nat)) = .ok [4]
    ∧ (fun (_ : List Nat) => (Except.ok ([6] : List Nat) : Except String (List Nat))) [4] = .ok [6]
    ∧ (fun (_ : List Nat) =>
        (Except.ok ([9, 9] : List Nat) : Except String (List Nat))) [] = .ok [9, 9]
    ∧ (((-2 : Int) < 0 →
        split_audio [9, 9] (-2) = .ok []
        ∧ process_video (.ok [4]) (fun _ => .ok [6]) (fun _ => .ok [9, 9]) (-2)
            (fun _ => .error "m4b")
          = (.ok "", [.download, .decode, .split, .write]))
      ∧ ((-2 : Int) = 0 →
        split_audio [9, 9] (-2) = .error .rangeStepZero
        ∧ process_video (.ok [4]) (fun _ => .ok [6]) (fun _ => .ok [9, 9]) (-2)
            (fun _ => .error "m4b")
          = (.error .rangeStepZero, [.download, .decode, .split]))) :=
  ⟨by decide, rfl, rfl, rfl,
    C4_no_invalid_config [9, 9] [4] [6] (-2) (.ok [4]) (fun _ => .ok [6])
      (fun _ => .ok [9, 9]) (fun _ => .error "m4b") (by decide) rfl rfl rfl⟩

/-- Every event the transcription loop emits is a `transcribe` call. -/
lemma transcribe_chunks_trace (engine : List Nat → Except String String)
    (chunks : List (List Nat)) :
    ∀ (i : Nat) (acc : String) (ev : Ev),
      ev ∈ (transcribe_chunks engine chunks i acc).2 → ∃ j, ev = Ev.transcribe j := by
  induction chunks with
  | nil =>
    intro i acc ev h
    simp [transcribe_chunks] at h
  | cons c cs ih =>
    intro i acc ev h
    cases hc : engine c with
    | error e =>
      simp only [transcribe_chunks, hc] at h
      simp at h
      exact ⟨i, h⟩
    | ok t =>
      simp only [transcribe_chunks, hc] at h
      simp at h
      rcases h with h | h
      · exact ⟨i, h⟩
      · exact ih (i + 1) (acc ++ t ++ "\n") ev h

/-- **C9 (amended).** An output file is written exactly when the whole run
succeeds.  Every fatal error — download, decode, segmentation, or any
chunk's transcription failure — aborts before the write, so the output path
is untouched; but contrary to the claim, a partial-success run (some chunks
succeeded before one failed) also writes nothing. -/
theorem C9_write_iff_success (dl : Except String (List Nat))
    (ffmpegRun fromFile : List Nat → Except String (List Nat)) (cd : Int)
    (engine : List Nat → Except String String) :
    (∃ s, (process_video dl ffmpegRun fromFile cd engine).1 = .ok s)
      ↔ Ev.write ∈ (process_video dl ffmpegRun fromFile cd engine).2 := by
  unfold process_video
  cases dl with
  | error e => simp
  | ok video =>
    dsimp only
    cases hext : extract_audio ffmpegRun video with
    | error e => simp
    | ok audio_data =>
      dsimp only
      cases hff : fromFile audio_data with
      | error e => simp
      | ok audio =>
        dsimp only
        cases hsp : split_audio audio cd with
        | error er => simp
        | ok chunks =>
          dsimp only
          rcases htc : transcribe_chunks engine chunks 0 "" with ⟨r, evs⟩
          have hevs : ∀ ev ∈ evs, ∃ j, ev = Ev.transcribe j := by
            intro ev hev
            exact transcribe_chunks_trace engine chunks 0 "" ev (by rw [htc]; exact hev)
          cases r with
          | error e =>
            dsimp only
            constructor
            · rintro ⟨s, hs⟩
              exact Except.noConfusion hs
            · intro hmem
              exfalso
              rcases List.mem_append.mp hmem with h | h
              · simp at h
              · obtain ⟨j, hj⟩ := hevs _ h
                exact Ev.noConfusion hj
          | ok ft =>
            dsimp only
            simp

/-- Refutation of C9's partial-success half: a run where chunk 0 succeeds
(text `"good"`) and chunk 1 fails writes nothing at all — the gathered
successful text is lost and no write event occurs. -/
theorem C9_counterexample :
    process_video (.ok [6]) (fun _ => .ok [8]) (fun _ => .ok (List.replicate 1001 3)) 1
        (fun c => if c.length = 1 then .error "m9" else .ok "good")
      = (.error (.transcriptionError "m9"),
         [.download, .decode, .split, .transcribe 0, .transcribe 1])
    ∧ Ev.write ∉
        (process_video (.ok [6]) (fun _ => .ok [8]) (fun _ => .ok (List.replicate 1001 3)) 1
          (fun c => if c.length = 1 then .error "m9" else .ok "good")).2 := by
  have hchunks : chunksOf (List.replicate 1001 3) 1000 = [List.replicate 1000 3, [3]] := by
    unfold chunksOf numChunks
    rw [List.length_replicate]
    norm_num
    rw [show List.range 2 = [0, 1] from rfl, List.map_cons, List.map_cons, List.map_nil]
    have h0 : pySlice (List.replicate 1001 (3 : Nat)) (0 * 1000) (0 * 1000 + 1000)
        = List.replicate 1000 3 := by
      unfold pySlice
      rw [List.drop_replicate, List.take_replicate]
      norm_num
    have h1 : pySlice (List.replicate 1001 (3 : Nat)) (1 * 1000) (1 * 1000 + 1000)
        = [3] := by
      unfold pySlice
      rw [List.drop_replicate, List.take_replicate]
      norm_num
    rw [h0, h1]
  have hsplit : split_audio (List.replicate 1001 3) 1 = .ok [List.replicate 1000 3, [3]] := by
    rw [split_audio_pos _ _ (by norm_num),
      show ((1 : Int).toNat * 1000) = 1000 by norm_num, hchunks]
  have he0 : (fun (c : List Nat) => if c.length = 1 then Except.error "m9" else Except.ok "good")
      (List.replicate 1000 3) = .ok "good" := by
    dsimp only
    rw [List.length_replicate]
    norm_num
  have he1 : (fun (c : List Nat) => if c.length = 1 then Except.error "m9" else Except.ok "good")
      [3] = .error "m9" := rfl
  have hpre : ∀ x ∈ [List.replicate 1000 (3 : Nat)],
      ∃ t, (fun (c : List Nat) => if c.length = 1 then Except.error "m9" else Except.ok "good") x
        = .ok t := by
    intro x hx
    rw [List.mem_singleton] at hx
    subst hx
    exact ⟨"good", he0⟩
  have hloop := transcribe_chunks_first_fail
    (fun (c : List Nat) => if c.length = 1 then Except.error "m9" else Except.ok "good")
    "m9" [List.replicate 1000 3] [3] [] hpre he1 0 ""
  rw [show ([List.replicate 1000 (3 : Nat)] ++ [3] :: [])
      = [List.replicate 1000 3, [3]] from rfl] at hloop
  rw [show (List.range' 0 ([List.replicate 1000 (3 : Nat)].length + 1)).map Ev.transcribe
      = [Ev.transcribe 0, Ev.transcribe 1] from rfl] at hloop
  have hmain : process_video (.ok [6]) (fun _ => .ok [8])
      (fun _ => .ok (List.replicate 1001 3)) 1
      (fun c => if c.length = 1 then .error "m9" else .ok "good")
      = (.error (.transcriptionError "m9"),
         [.download, .decode, .split, .transcribe 0, .transcribe 1]) := by
    unfold process_video extract_audio
    dsimp only
    rw [hsplit]
    dsimp only
    rw [hloop]
    rfl
  refine ⟨hmain, ?_⟩
  rw [hmain]
  simp

/-- A 1001 ms buffer at `chunkDuration = 1` splits into a 1000 ms chunk and
a 1 ms trailing chunk. -/
lemma split_audio_replicate_1001 (v : Nat) :
    split_audio (List.replicate 1001 v) 1 = .ok [List.replicate 1000 v, [v]] := by
  rw [split_audio_pos _ _ (by norm_num),
    show ((1 : Int).toNat * 1000) = 1000 by norm_num]
  unfold chunksOf numChunks
  rw [List.length_replicate]
  norm_num
  rw [show List.range 2 = [0, 1] from rfl, List.map_cons, List.map_cons, List.map_nil]
  have h0 : pySlice (List.replicate 1001 v) (0 * 1000) (0 * 1000 + 1000)
      = List.replicate 1000 v := by
    unfold pySlice
    rw [List.drop_replicate, List.take_replicate]
    norm_num
  have h1 : pySlice (List.replicate 1001 v) (1 * 1000) (1 * 1000 + 1000) = [v] := by
    unfold pySlice
    rw [List.drop_replicate, List.take_replicate]
    norm_num
  rw [h0, h1]

/-- Refutation of C2: with chunk sequence `[[0], [1]]` where exactly chunk
index 1 fails and chunk 0 succeeds as `"a"`, the transcription loop aborts
with the exception — the run result is an error, never a success (so no
transcript containing the successful chunks is produced and the run does
not report success). -/
theorem C2_counterexample :
    (transcribe_chunks (fun c => if c = [1] then .error "m2" else .ok "a") [[0], [1]] 0 "").1
      = .error "m2"
    ∧ ∀ s, (transcribe_chunks (fun c => if c = [1] then .error "m2" else .ok "a")
        [[0], [1]] 0 "").1 ≠ .ok s := by
  refine ⟨rfl, ?_⟩
  intro s h
  rw [show (transcribe_chunks (fun c => if c = [1] then Except.error "m2" else Except.ok "a")
      [[0], [1]] 0 "").1 = .error "m2" from rfl] at h
  exact Except.noConfusion h

/-- **C2 (amended).** A single chunk's transcription failure aborts the
whole run: when all chunks before index `k = pre.length` succeed and chunk
`k` fails, the failing chunk's exception propagates out of `process_video`
unchanged, the chunks after `k` are never attempted (the trace stops at
`transcribe k`), and no output is written — regardless of whether the later
chunks would have succeeded. -/
theorem C2_single_failure_aborts (dl : Except String (List Nat))
    (ffmpegRun fromFile : List Nat → Except String (List Nat))
    (video stdout audio : List Nat) (cd : Int)
    (engine : List Nat → Except String String)
    (pre post : List (List Nat)) (c : List Nat) (e : String)
    (hdl : dl = .ok video) (hffr : ffmpegRun video = .ok stdout)
    (hff : fromFile [] = .ok audio)
    (hsplit : split_audio audio cd = .ok (pre ++ c :: post))
    (hpre : ∀ x ∈ pre, ∃ t, engine x = .ok t)
    (hc : engine c = .error e)
    (hpost : ∀ x ∈ post, ∃ t, engine x = .ok t) :
    process_video dl ffmpegRun fromFile cd engine
      = (.error (.transcriptionError e),
         [.download, .decode, .split]
           ++ (List.range' 0 (pre.length + 1)).map Ev.transcribe) := by
  subst hdl
  simp only [process_video, extract_audio, hffr, hff, hsplit,
    transcribe_chunks_first_fail engine e pre c post hpre hc 0 ""]

/-- Witness for C2 (amended): a two-chunk run where chunk 0 succeeds as
`"ok2"` and chunk 1 fails with `"m2w"`. -/
theorem C2_single_failure_aborts_witness :
    (Except.ok ([4] : List Nat) : Except String (List Nat)) = .ok [4]
    ∧ (fun (_ : List Nat) => (Except.ok ([5] : List Nat) : Except String (List Nat))) [4]
        = .ok [5]
    ∧ (fun (_ : List Nat) =>
        (Except.ok (List.replicate 1001 2) : Except String (List Nat))) [] =
        .ok (List.replicate 1001 2)
    ∧ split_audio (List.replicate 1001 2) 1
        = .ok ([List.replicate 1000 2] ++ [2] :: [])
    ∧ (∀ x ∈ [List.replicate 1000 (2 : Nat)],
        ∃ t, (fun (c : List Nat) => if c.length = 1 then Except.error "m2w" else Except.ok "ok2") x
          = .ok t)
    ∧ (fun (c : List Nat) => if c.length = 1 then Except.error "m2w" else Except.ok "ok2") [2]
        = .error "m2w"
    ∧ (∀ x ∈ ([] : List (List Nat)),
        ∃ t, (fun (c : List Nat) => if c.length = 1 then Except.error "m2w" else Except.ok "ok2") x
          = .ok t)
    ∧ process_video (.ok [4]) (fun _ => .ok [5]) (fun _ => .ok (List.replicate 1001 2)) 1
        (fun c => if c.length = 1 then .error "m2w" else .ok "ok2")
      = (.error (.transcriptionError "m2w"),
         [.download, .decode, .split]
           ++ (List.range' 0 (([List.replicate 1000 (2 : Nat)] : List (List Nat)).length + 1)).map
                Ev.transcribe) :=
  ⟨rfl, rfl, rfl, split_audio_replicate_1001 2,
    fun x hx => ⟨"ok2", by
      rw [List.mem_singleton] at hx
      subst hx
      dsimp only
      rw [List.length_replicate]
      norm_num⟩,
    rfl,
    fun x hx => absurd hx (List.not_mem_nil x),
    C2_single_failure_aborts (.ok [4]) (fun _ => .ok [5])
      (fun _ => .ok (List.replicate 1001 2)) [4] [5] (List.replicate 1001 2) 1
      (fun c => if c.length = 1 then .error "m2w" else .ok "ok2")
      [List.replicate 1000 2] [] [2] "m2w" rfl rfl rfl (split_audio_replicate_1001 2)
      (fun x hx => ⟨"ok2", by
        rw [List.mem_singleton] at hx
        subst hx
        dsimp only
        rw [List.length_replicate]
        norm_num⟩)
      rfl
      (fun x hx => absurd hx (List.not_mem_nil x))⟩

/-- Refutation of C5 as stated: when every chunk fails, the run does fail
and writes nothing, but not by assessing all chunks and surfacing an
aggregate `TranscriptionFailed`: it aborts with the first chunk's own
exception and never attempts the second chunk at all. -/
theorem C5_counterexample :
    transcribe_chunks (fun c => if c = [0] then .error "m5a" else .error "m5b") [[0], [1]] 0 ""
      = (.error "m5a", [.transcribe 0])
    ∧ Ev.transcribe 1 ∉
        (transcribe_chunks (fun c => if c = [0] then .error "m5a" else .error "m5b")
          [[0], [1]] 0 "").2 := by
  refine ⟨rfl, ?_⟩
  rw [show (transcribe_chunks (fun c => if c = [0] then Except.error "m5a" else Except.error "m5b")
      [[0], [1]] 0 "").2 = [Ev.transcribe 0] from rfl]
  simp

/-- **C5 (amended).** When every chunk's transcription fails (so in
particular the first one does), the run fails — with the first chunk's own
`TranscriptionError`, not an aggregate — no output file is written, and
only chunk 0 is ever attempted. -/
theorem C5_all_fail (dl : Except String (List Nat))
    (ffmpegRun fromFile : List Nat → Except String (List Nat))
    (video stdout audio c : List Nat) (cs : List (List Nat)) (cd : Int)
    (engine : List Nat → Except String String) (e : String)
    (hdl : dl = .ok video) (hffr : ffmpegRun video = .ok stdout)
    (hff : fromFile [] = .ok audio)
    (hsplit : split_audio audio cd = .ok (c :: cs))
    (hall : ∀ x ∈ c :: cs, ∃ er, engine x = .error er)
    (hc : engine c = .error e) :
    process_video dl ffmpegRun fromFile cd engine
      = (.error (.transcriptionError e),
         [.download, .decode, .split, .transcribe 0]) := by
  subst hdl
  have hloop := transcribe_chunks_first_fail engine e [] c cs (by simp) hc 0 ""
  rw [List.nil_append] at hloop
  rw [show (List.range' 0 (([] : List (List Nat)).length + 1)).map Ev.transcribe
      = [Ev.transcribe 0] from rfl] at hloop
  simp only [process_video, extract_audio, hffr, hff, hsplit, hloop]
  rfl

/-- Witness for C5 (amended): a single-chunk run whose only chunk fails. -/
theorem C5_all_fail_witness :
    (Except.ok ([7] : List Nat) : Except String (List Nat)) = .ok [7]
    ∧ (fun (_ : List Nat) => (Except.ok ([8] : List Nat) : Except String (List Nat))) [7]
        = .ok [8]
    ∧ (fun (_ : List Nat) =>
        (Except.ok ([1, 2, 3] : List Nat) : Except String (List Nat))) [] = .ok [1, 2, 3]
    ∧ split_audio [1, 2, 3] 1 = .ok ([1, 2, 3] :: [])
    ∧ (∀ x ∈ ([1, 2, 3] : List Nat) :: ([] : List (List Nat)),
        ∃ er, (fun (_ : List Nat) => (Except.error "m5w" : Except String String)) x = .error er)
    ∧ (fun (_ : List Nat) => (Except.error "m5w" : Except String String)) [1, 2, 3]
        = .error "m5w"
    ∧ process_video (.ok [7]) (fun _ => .ok [8]) (fun _ => .ok [1, 2, 3]) 1
        (fun _ => .error "m5w")
      = (.error (.transcriptionError "m5w"),
         [.download, .decode, .split, .transcribe 0]) :=
  ⟨rfl, rfl, rfl, rfl, fun x _ => ⟨"m5w", rfl⟩, rfl,
    C5_all_fail (.ok [7]) (fun _ => .ok [8]) (fun _ => .ok [1, 2, 3]) [7] [8] [1, 2, 3]
      [1, 2, 3] [] 1 (fun _ => .error "m5w") "m5w" rfl rfl rfl rfl
      (fun x _ => ⟨"m5w", rfl⟩) rfl⟩

/-- Refutation of C3's universal claim: for the chunk sequence `[[0], [1]]`
with chunk 0 succeeding as `"a"` and chunk 1 failing, the code produces no
final transcript at all — the loop propagates the exception — rather than
the successful-segments-only transcript `"a\n"`. -/
theorem C3_counterexample :
    (transcribe_chunks (fun c => if c = [1] then .error "m3" else .ok "a") [[0], [1]] 0 "").1
      = .error "m3"
    ∧ (transcribe_chunks (fun c => if c = [1] then .error "m3" else .ok "a") [[0], [1]] 0 "").1
      ≠ .ok "a\n" := by
  constructor
  · rfl
  · rw [show (transcribe_chunks (fun c => if c = [1] then Except.error "m3" else Except.ok "a")
        [[0], [1]] 0 "").1 = .error "m3" from rfl]
    exact fun h => Except.noConfusion h

/-- **C3 (amended).** When every chunk succeeds, the final transcript is the
concatenation in chunk order of each chunk's text with a newline appended
per chunk (when any chunk fails no transcript is produced — the run aborts;
see the counterexample).  The 65-second example holds as claimed: a
65000 ms buffer at `chunkDuration = 30` yields 3 chunks of 30000 ms,
30000 ms and 5000 ms, and engine results `"a"`, `"b"`, `"c"` yield the
transcript `"a\nb\nc\n"`. -/
theorem C3_transcript_assembly (engine : List Nat → Except String String)
    (chunks : List (List Nat)) (texts : List String)
    (hall : chunks.map engine = texts.map Except.ok)
    (audio : List Nat) (hlen : audio.length = 65000)
    (eng2 : List Nat → Except String String)
    (ha : eng2 (pySlice audio 0 30000) = .ok "a")
    (hb : eng2 (pySlice audio 30000 60000) = .ok "b")
    (hc : eng2 (pySlice audio 60000 90000) = .ok "c") :
    (transcribe_chunks engine chunks 0 "").1
      = .ok (texts.foldl (fun a t => a ++ t ++ "\n") "")
    ∧ split_audio audio 30
        = .ok [pySlice audio 0 30000, pySlice audio 30000 60000, pySlice audio 60000 90000]
    ∧ (pySlice audio 0 30000).length = 30000
    ∧ (pySlice audio 30000 60000).length = 30000
    ∧ (pySlice audio 60000 90000).length = 5000
    ∧ (transcribe_chunks eng2
        [pySlice audio 0 30000, pySlice audio 30000 60000, pySlice audio 60000 90000] 0 "").1
      = .ok "a\nb\nc\n" := by
  refine ⟨?_, ?_, ?_, ?_, ?_, ?_⟩
  · rw [transcribe_chunks_all_ok engine chunks texts hall 0 ""]
  · rw [split_audio_pos _ _ (by norm_num),
      show ((30 : Int).toNat * 1000) = 30000 by rfl]
    unfold chunksOf numChunks
    rw [hlen]
    norm_num
    rw [show List.range 3 = [0, 1, 2] from rfl, List.map_cons, List.map_cons, List.map_cons,
      List.map_nil]
  · unfold pySlice
    rw [List.length_take, List.length_drop, hlen]
    omega
  · unfold pySlice
    rw [List.length_take, List.length_drop, hlen]
    omega
  · unfold pySlice
    rw [List.length_take, List.length_drop, hlen]
    omega
  · simp only [transcribe_chunks, ha, hb, hc]
    rfl

/-- A 65000 ms buffer made of three pairwise-distinguishable blocks, used
to instantiate the 65-second example. -/
def blockAudio65s : List Nat :=
  List.replicate 30000 0 ++ (List.replicate 30000 1 ++ List.replicate 5000 2)

/-- An engine returning `"a"`, `"b"`, `"c"` on the three blocks of
`blockAudio65s`. -/
def blockEngine65s (c : List Nat) : Except String String :=
  if c = List.replicate 30000 0 then .ok "a"
  else if c = List.replicate 30000 1 then .ok "b" else .ok "c"

lemma blockAudio65s_length : blockAudio65s.length = 65000 := by
  unfold blockAudio65s
  rw [List.length_append, List.length_append, List.length_replicate, List.length_replicate,
    List.length_replicate]

lemma blockAudio65s_slice0 : pySlice blockAudio65s 0 30000 = List.replicate 30000 0 := by
  unfold blockAudio65s pySlice
  rw [List.drop_zero, Nat.sub_zero, List.take_left' (List.length_replicate 30000 0)]

lemma blockAudio65s_slice1 : pySlice blockAudio65s 30000 60000 = List.replicate 30000 1 := by
  unfold blockAudio65s pySlice
  rw [List.drop_left' (List.length_replicate 30000 0),
    show (60000 - 30000 : Nat) = 30000 by norm_num,
    List.take_left' (List.length_replicate 30000 1)]

lemma blockAudio65s_slice2 : pySlice blockAudio65s 60000 90000 = List.replicate 5000 2 := by
  unfold blockAudio65s pySlice
  have hd : (List.replicate 30000 (0 : Nat)
      ++ (List.replicate 30000 1 ++ List.replicate 5000 2)).drop 60000
      = List.replicate 5000 2 := by
    rw [List.drop_append_eq_append_drop, List.drop_replicate,
      List.drop_append_eq_append_drop, List.drop_replicate, List.drop_replicate,
      List.length_replicate, List.length_replicate]
    norm_num
  rw [hd]
  exact List.take_of_length_le (by rw [List.length_replicate]; norm_num)

lemma blockEngine65s_a : blockEngine65s (pySlice blockAudio65s 0 30000) = .ok "a" := by
  rw [blockAudio65s_slice0]
  unfold blockEngine65s
  rw [if_pos rfl]

lemma blockEngine65s_b : blockEngine65s (pySlice blockAudio65s 30000 60000) = .ok "b" := by
  rw [blockAudio65s_slice1]
  unfold blockEngine65s
  rw [if_neg (by decide), if_pos rfl]

lemma blockEngine65s_c : blockEngine65s (pySlice blockAudio65s 60000 90000) = .ok "c" := by
  rw [blockAudio65s_slice2]
  unfold blockEngine65s
  rw [if_neg (by decide), if_neg (by decide)]

/-- Witness for C3 (amended): a 65000 ms buffer made of three distinct
blocks, with an engine returning `"a"`, `"b"`, `"c"` on them. -/
theorem C3_transcript_assembly_witness :
    ([[9]] : List (List Nat)).map (fun _ => (Except.ok "t3" : Except String String))
      = (["t3"].map Except.ok)
    ∧ blockAudio65s.length = 65000
    ∧ blockEngine65s (pySlice blockAudio65s 0 30000) = .ok "a"
    ∧ blockEngine65s (pySlice blockAudio65s 30000 60000) = .ok "b"
    ∧ blockEngine65s (pySlice blockAudio65s 60000 90000) = .ok "c"
    ∧ (transcribe_chunks (fun _ => .ok "t3") [[9]] 0 "").1
        = .ok ((["t3"] : List String).foldl (fun a t => a ++ t ++ "\n") "")
    ∧ split_audio blockAudio65s 30
        = .ok [pySlice blockAudio65s 0 30000, pySlice blockAudio65s 30000 60000,
               pySlice blockAudio65s 60000 90000]
    ∧ (transcribe_chunks blockEngine65s
        [pySlice blockAudio65s 0 30000, pySlice blockAudio65s 30000 60000,
         pySlice blockAudio65s 60000 90000] 0 "").1
        = .ok "a\nb\nc\n" := by
  have happ := C3_transcript_assembly (fun _ => .ok "t3") [[9]] ["t3"] rfl
    blockAudio65s blockAudio65s_length blockEngine65s
    blockEngine65s_a blockEngine65s_b blockEngine65s_c
  exact ⟨rfl, blockAudio65s_length, blockEngine65s_a, blockEngine65s_b, blockEngine65s_c,
    happ.1, happ.2.1, happ.2.2.2.2.2⟩

example : split_audio [0, 1, 2, 3, 4] 1 = .ok [[0, 1, 2, 3, 4]] := rfl

example : split_audio [] (-1) = .ok [] := rfl

example : split_audio [0] 0 = .error .rangeStepZero := rfl

example :
    (transcribe_chunks (fun c => if c = [0] then .ok "a" else .error "x") [[0], [1]] 0 "")
      = (.error "x", [.transcribe 0, .transcribe 1]) := rfl
